import Mathlib

/-!
Shallow embedding of the AnyListDB backend services (NestJS + TypeORM) and
proofs about them.

The datastore is modelled as explicit lists of entity records that the
service functions thread through; a TypeORM `Repository.findOneBy` becomes
`List.find?`, `save` of an existing record becomes a positional replace,
thrown Nest exceptions become the `.error` branch of `Except`.
-/

/--
The Nest exception taxonomy actually used by the services, plus
`queryFailedError` for a raw TypeORM/postgres error that a service lets
escape uncaught (code is the postgres error code, e.g. "23505" for a
unique-constraint violation).
-/
inductive AppError where
  | notFoundException (msg : String)
  | badRequestException (msg : String)
  | unauthorizedException (msg : String)
  | forbiddenException (msg : String)
  | internalServerErrorException (msg : String)
  | queryFailedError (code : String) (detail : String)
deriving DecidableEq

/--
`UsersService.handleDBErrors`: the catch-all used by `UsersService.create`
and `UsersService.update`. Any caught error whose `code` is `'23505'` is
rethrown as `BadRequestException(error.detail.replace('Key', ''))`; every
other caught error (including a `NotFoundException` thrown inside the same
`try` block) becomes `InternalServerErrorException('Please check server logs')`.
-/
def handleDBErrors (e : AppError) : AppError :=
  match e with
  | .queryFailedError code detail =>
      if code == "23505" then .badRequestException (detail.replace "Key" "")
      else .internalServerErrorException "Please check server logs"
  | _ => .internalServerErrorException "Please check server logs"

/--
How an error thrown by a service is seen by the caller at the framework
boundary: Nest's default exception filter passes HTTP exceptions through
unchanged and turns any non-HTTP error (such as an uncaught TypeORM
`QueryFailedError`) into a generic 500 Internal Server Error response.
-/
def surfacedToCaller (e : AppError) : AppError :=
  match e with
  | .queryFailedError _ _ => .internalServerErrorException "Internal server error"
  | other => other

/--
Is the surfaced error a distinguishable, user-facing conflict report
(the shape `handleDBErrors` produces for a unique-constraint violation),
as opposed to a generic failure?
-/
def AppError.isUserFacingConflict : AppError → Bool
  | .badRequestException _ => true
  | _ => false

/-- Model of the external `bcrypt.hashSync` primitive (out-of-scope library). -/
def bcryptHashSync (plain : String) : String :=
  "bcrypt$" ++ plain

/-- Model of the external `bcrypt.compareSync` primitive. -/
def bcryptCompareSync (plain hash : String) : Bool :=
  hash == bcryptHashSync plain

/-- Model of `AuthService.getJwtToken`: `jwtService.sign({ id: userId })`. -/
def getJwtToken (userId : String) : String :=
  "jwt." ++ userId

/-- `ValidRoles.admin` from the roles enum (runtime value is the string). -/
def ValidRoles.admin : String := "admin"

/-- `ValidRoles.user` from the roles enum. -/
def ValidRoles.user : String := "user"

/-- `ValidRoles.superUser` from the roles enum. -/
def ValidRoles.superUser : String := "superUser"

/--
The `User` entity: id, fullName, email, password column, roles (text array),
isActive flag, and the weak `lastUpdatedBy` self-reference persisted as the
referenced user's id. `password` is an `Option` because
`AuthService.validateUser` does `delete user.password` on the in-memory
object before returning it.
-/
structure User where
  id : String
  fullName : String
  email : String
  password : Option String
  roles : List String
  isActive : Bool
  lastUpdatedBy : Option String
deriving DecidableEq

/-- The `Item` entity: id, name, optional quantityUnits, owning user id. -/
structure Item where
  id : String
  name : String
  quantityUnits : Option String
  userId : String
deriving DecidableEq

/--
The `List` entity (named `ListEntity` here because `List` is the Lean core
type): id, name, owning user id.
-/
structure ListEntity where
  id : String
  name : String
  userId : String
deriving DecidableEq

/--
The `ListItem` entity: id, quantity, completed, and the `listId`/`itemId`
foreign keys. The table carries the composite unique constraint
`@Unique('listItem-item', ['list', 'item'])`.
-/
structure ListItem where
  id : String
  quantity : Int
  completed : Bool
  listId : String
  itemId : String
deriving DecidableEq

/-- `SignUpInput`: fullName, email, password. -/
structure SignUpInput where
  fullName : String
  email : String
  password : String
deriving DecidableEq

/-- `LoginInput`: email, password. -/
structure LoginInput where
  email : String
  password : String
deriving DecidableEq

/-- `AuthResponse`: token plus the user object. -/
structure AuthResponse where
  token : String
  user : User
deriving DecidableEq

/--
`UpdateUserInput` (PartialType of the signup fields plus the mandatory id);
absent fields are `none` and are skipped by `preload`.
-/
structure UpdateUserInput where
  id : String
  fullName : Option String := none
  email : Option String := none
deriving DecidableEq

/-- `UpdateItemInput` (PartialType of `CreateItemInput` plus the mandatory id). -/
structure UpdateItemInput where
  id : String
  name : Option String := none
  quantityUnits : Option String := none
deriving DecidableEq

/-- `UpdateListInput` (PartialType of `CreateListInput` plus the mandatory id). -/
structure UpdateListInput where
  id : String
  name : Option String := none
deriving DecidableEq

/-- `CreateListItemInput`: quantity (default 0), completed (default false), listId, itemId. -/
structure CreateListItemInput where
  quantity : Int := 0
  completed : Bool := false
  listId : String
  itemId : String
deriving DecidableEq

/--
`repository.save` of an already-persisted record: replace the row whose
primary key matches, leaving every other row unchanged.
-/
def saveUser (store : List User) (u : User) : List User :=
  store.map (fun v => if v.id == u.id then u else v)

/-- `itemsRepository.save` of an existing row: replace by primary key. -/
def saveItem (store : List Item) (it : Item) : List Item :=
  store.map (fun v => if v.id == it.id then it else v)

/-- `listRepository.save` of an existing row: replace by primary key. -/
def saveList (store : List ListEntity) (l : ListEntity) : List ListEntity :=
  store.map (fun v => if v.id == l.id then l else v)

/--
`UsersService.findOneById`: `findOneByOrFail({ id })`, with the failure
rethrown as `NotFoundException` with the id in the message.
-/
def UsersService.findOneById (store : List User) (id : String) : Except AppError User :=
  match store.find? (fun u => u.id == id) with
  | some u => .ok u
  | none => .error (.notFoundException (id ++ " not found"))

/--
`UsersService.findOneByEmail`: `findOneByOrFail({ email })`, with the failure
rethrown as `NotFoundException` with the email in the message.
-/
def UsersService.findOneByEmail (store : List User) (email : String) : Except AppError User :=
  match store.find? (fun u => u.email == email) with
  | some u => .ok u
  | none => .error (.notFoundException (email ++ " not found"))

/--
`UsersService.create`: hash the password with bcrypt, save. A duplicate
email violates the users table unique constraint at save time; the caught
error goes through `handleDBErrors`. `newId` stands for the generated uuid.
The new user's column defaults (roles `['user']`, isActive true) come from
the entity definition.
-/
def UsersService.create (store : List User) (inp : SignUpInput) (newId : String) :
    Except AppError (List User × User) :=
  if store.any (fun u => u.email == inp.email) then
    .error (handleDBErrors
      (.queryFailedError "23505" ("Key (email)=(" ++ inp.email ++ ") already exists.")))
  else
    let newUser : User :=
      { id := newId, fullName := inp.fullName, email := inp.email,
        password := some (bcryptHashSync inp.password),
        roles := [ValidRoles.user], isActive := true, lastUpdatedBy := none }
    .ok (store ++ [newUser], newUser)

/-- `usersRepository.preload({...updateUserInput, id})`: load the row with the explicit `id` argument and merge the defined input fields onto it. -/
def preloadUser (store : List User) (id : String) (inp : UpdateUserInput) : Option User :=
  (store.find? (fun u => u.id == id)).map (fun u =>
    { u with
      fullName := inp.fullName.getD u.fullName,
      email := inp.email.getD u.email })

/--
`UsersService.update`: preload by the explicit id (a missing row throws
`NotFoundException`, but the surrounding `try`/`catch` feeds that throw into
`handleDBErrors`, which replaces it); set `lastUpdatedBy` to the acting
user; save (a duplicate email at save time also goes through
`handleDBErrors`).
-/
def UsersService.update (store : List User) (id : String) (inp : UpdateUserInput)
    (updatedBy : User) : Except AppError (List User × User) :=
  match preloadUser store id inp with
  | none => .error (handleDBErrors (.notFoundException ("Item with id: " ++ id ++ " not found")))
  | some user =>
    let merged := { user with lastUpdatedBy := some updatedBy.id }
    if store.any (fun v => (!(v.id == merged.id)) && v.email == merged.email) then
      .error (handleDBErrors
        (.queryFailedError "23505" ("Key (email)=(" ++ merged.email ++ ") already exists.")))
    else
      .ok (saveUser store merged, merged)

/--
`UsersService.block`: find the user by id (NotFound if absent), set
`isActive := false` and `lastUpdatedBy := adminUser`, save.
-/
def UsersService.block (store : List User) (id : String) (adminUser : User) :
    Except AppError (List User × User) :=
  match UsersService.findOneById store id with
  | .error e => .error e
  | .ok userToBlock =>
    let blocked := { userToBlock with isActive := false, lastUpdatedBy := some adminUser.id }
    .ok (saveUser store blocked, blocked)

/--
`AuthService.login`: resolve the user by email (propagating
`findOneByEmail`'s NotFound), compare the plaintext against the stored hash
with bcrypt, throw `BadRequestException('Email / Password do not match')` on
mismatch, otherwise return a token and the user object as loaded.
-/
def AuthService.login (store : List User) (inp : LoginInput) : Except AppError AuthResponse :=
  match UsersService.findOneByEmail store inp.email with
  | .error e => .error e
  | .ok user =>
    if !(bcryptCompareSync inp.password (user.password.getD "")) then
      .error (.badRequestException "Email / Password do not match")
    else
      .ok { token := getJwtToken user.id, user := user }

/-- `AuthService.signup`: create the user, sign a token, return both. -/
def AuthService.signup (store : List User) (inp : SignUpInput) (newId : String) :
    Except AppError (List User × AuthResponse) :=
  match UsersService.create store inp newId with
  | .error e => .error e
  | .ok (store', user) => .ok (store', { token := getJwtToken user.id, user := user })

/--
`AuthService.validateUser`: resolve the id (propagating NotFound), throw
`UnauthorizedException` if the user is inactive, delete the password
property from the returned object.
-/
def AuthService.validateUser (store : List User) (id : String) : Except AppError User :=
  match UsersService.findOneById store id with
  | .error e => .error e
  | .ok user =>
    if !user.isActive then
      .error (.unauthorizedException "User is inactive, talk with an admin")
    else
      .ok { user with password := none }

/-- `AuthService.revalidateToken`: sign a fresh token for the context user and return both. -/
def AuthService.revalidateToken (user : User) : AuthResponse :=
  { token := getJwtToken user.id, user := user }

/--
The `CurrentUser` param decorator: a missing request user is a fatal
`InternalServerErrorException`; an empty required-role list grants access;
otherwise access is granted exactly when some role of the user appears in
the required list, and denied with a `ForbiddenException` naming the user
and the required roles.
-/
def CurrentUser (roles : List String) (requester : Option User) : Except AppError User :=
  match requester with
  | none =>
    .error (.internalServerErrorException
      "No user inside the request - make sure that we used the AuthGuard")
  | some user =>
    if roles.isEmpty then .ok user
    else if user.roles.any (fun role => roles.contains role) then .ok user
    else
      .error (.forbiddenException
        ("User " ++ user.fullName ++ " need a valid role [" ++ String.intercalate "," roles ++ "]"))

/--
Does `hay` start with `needle`? A plain recursive prefix check on character
lists — a building block of the specification-side literal substring test.
-/
def likeStartsWith : List Char → List Char → Bool
  | [], _ => true
  | _ :: _, [] => false
  | a :: as, b :: bs => a == b && likeStartsWith as bs

/--
Does `needle` occur contiguously (as a literal substring, no wildcards)
inside `hay`? This is the specification-side notion of "case-insensitive
substring match" that the spec's search contract describes; the program
itself runs SQL LIKE (`likeMatch` below), which only coincides with this
test when the search term holds no LIKE metacharacters.
-/
def likeAux (needle : List Char) : List Char → Bool
  | [] => needle.isEmpty
  | c :: t => likeStartsWith needle (c :: t) || likeAux needle t

/-- SQL `LOWER` / JS `toLowerCase`, modelled characterwise. -/
def lowerChars (s : String) : List Char :=
  s.toList.map Char.toLower

/-- Does `f` accept some suffix of the text (the text itself included)? The engine behind the `%` wildcard. -/
def anySuffix (f : List Char → Bool) : List Char → Bool
  | [] => f []
  | t :: ts => f (t :: ts) || anySuffix f ts

/--
SQL LIKE pattern matching, as postgres evaluates the filter: `%` matches
any character sequence (including the empty one), `_` matches exactly one
character, a backslash (the default escape character) makes the following
pattern character literal, and every other pattern character matches
itself.
-/
def likeMatch : List Char → List Char → Bool
  | [], text => text.isEmpty
  | p :: ps, text =>
    if p = '%' then anySuffix (fun rest => likeMatch ps rest) text
    else
      match text with
      | [] => false
      | t :: ts =>
        if p = '_' then likeMatch ps ts
        else if p = '\\' then
          match ps with
          | [] => false
          | q :: ps2 => q == t && likeMatch ps2 ts
        else p == t && likeMatch ps ts

/--
`LOWER(column) LIKE :name` with parameter `'%' + search.toLowerCase() + '%'`:
the filter every `findAll` applies when a search term is given. The term is
embedded in the pattern unescaped, so `%`, `_` and `\` inside the
user-supplied term keep their LIKE wildcard/escape meaning.
-/
def sqlLikeLower (search column : String) : Bool :=
  likeMatch ('%' :: (lowerChars search ++ ['%'])) (lowerChars column)

/--
The row set selected by `ListsService.findAll`'s WHERE clauses before
pagination: rows owned by the user, and, when a non-empty search term is
given (JS `if (search)` skips both `undefined` and `''`), rows whose name
matches the case-insensitive substring filter.
-/
def ListsService.matchingRows (store : List ListEntity) (user : User)
    (search : Option String) : List ListEntity :=
  (store.filter (fun l => l.userId == user.id)).filter (fun l =>
    match search with
    | none => true
    | some s => if s.isEmpty then true else sqlLikeLower s l.name)

/--
`ListsService.findAll`: WHERE by owner (and search), then
`take(limit)`/`skip(offset)`, which for this single-table query is SQL
`LIMIT limit OFFSET offset` — skip first, then cap.
-/
def ListsService.findAll (store : List ListEntity) (user : User)
    (limit offset : Nat) (search : Option String) : List ListEntity :=
  ((ListsService.matchingRows store user search).drop offset).take limit

/-- The row set selected by `ItemsService.findAll`'s WHERE clauses before pagination. -/
def ItemsService.matchingRows (store : List Item) (user : User)
    (search : Option String) : List Item :=
  (store.filter (fun it => it.userId == user.id)).filter (fun it =>
    match search with
    | none => true
    | some s => if s.isEmpty then true else sqlLikeLower s it.name)

/--
`ItemsService.findAll`: WHERE by owner (and case-insensitive search on
`item.name`), then `LIMIT limit OFFSET offset`.
-/
def ItemsService.findAll (store : List Item) (user : User)
    (limit offset : Nat) (search : Option String) : List Item :=
  ((ItemsService.matchingRows store user search).drop offset).take limit

/--
`ItemsService.findOne`: `findOneBy({ id, user: { id: user.id } })`, throwing
`NotFoundException` with the id in the message when nothing matches — the
same error whether the id does not exist at all or exists under another
owner.
-/
def ItemsService.findOne (store : List Item) (id : String) (user : User) :
    Except AppError Item :=
  match store.find? (fun it => it.id == id && it.userId == user.id) with
  | some it => .ok it
  | none => .error (.notFoundException ("Item with id: " ++ id ++ " not found"))

/-- The field merge `preload` applies: defined input fields overwrite, absent fields keep the stored values. -/
def mergeItem (it : Item) (inp : UpdateItemInput) : Item :=
  { it with
    name := inp.name.getD it.name,
    quantityUnits := match inp.quantityUnits with
      | none => it.quantityUnits
      | some q => some q }

/-- `itemsRepository.preload(updateItemInput)`: load the row whose id is the id embedded in the input and merge the defined input fields onto it. -/
def ItemsService.preload (store : List Item) (inp : UpdateItemInput) : Option Item :=
  (store.find? (fun it => it.id == inp.id)).map (fun it => mergeItem it inp)

/--
`ItemsService.update`: run `findOne(id, user)` as the ownership/existence
check, then `preload(updateItemInput)` — note the preload target is
`updateItemInput.id`, not the `id` argument — then save the merged row.
-/
def ItemsService.update (store : List Item) (id : String) (inp : UpdateItemInput)
    (user : User) : Except AppError (List Item × Item) :=
  match ItemsService.findOne store id user with
  | .error e => .error e
  | .ok _ =>
    match ItemsService.preload store inp with
    | none => .error (.notFoundException ("Item with id: " ++ id ++ " not found"))
    | some item => .ok (saveItem store item, item)

/--
`ListsService.findOne`: `findOneBy({ id, user: { id: user.id } })`, throwing
`NotFoundException` with the id in the message when nothing matches.
-/
def ListsService.findOne (store : List ListEntity) (id : String) (user : User) :
    Except AppError ListEntity :=
  match store.find? (fun l => l.id == id && l.userId == user.id) with
  | some l => .ok l
  | none => .error (.notFoundException ("List with id: " ++ id ++ " not found"))

/-- The field merge for list updates: defined input fields overwrite, absent fields keep the stored values. -/
def mergeList (l : ListEntity) (inp : UpdateListInput) : ListEntity :=
  { l with name := inp.name.getD l.name }

/-- `listRepository.preload(updateListInput)`: load by the input's embedded id and merge the defined fields. -/
def ListsService.preload (store : List ListEntity) (inp : UpdateListInput) :
    Option ListEntity :=
  (store.find? (fun l => l.id == inp.id)).map (fun l => mergeList l inp)

/--
`ListsService.update`: `findOne(id, user)` as the ownership/existence check,
then `preload(updateListInput)` (target `updateListInput.id`), then save.
The preload-miss message says "Item with id: ..." — copied verbatim from the
source, which reuses the items wording here.
-/
def ListsService.update (store : List ListEntity) (id : String) (inp : UpdateListInput)
    (user : User) : Except AppError (List ListEntity × ListEntity) :=
  match ListsService.findOne store id user with
  | .error e => .error e
  | .ok _ =>
    match ListsService.preload store inp with
    | none => .error (.notFoundException ("Item with id: " ++ id ++ " not found"))
    | some l => .ok (saveList store l, l)

/--
`ListItemService.findOne` as written in the source: the call
`this.listItemsRepository.findOneBy({ id })` is NOT awaited, so the local
`listItem` is a pending promise — a truthy value — and the
`if (!listItem) throw new NotFoundException(...)` guard can never fire.
What the caller awaits is the raw `findOneBy` result, i.e. the row or
`null`; hence the Lean result type `Except AppError (Option ListItem)` with
the error branch unreachable.
-/
def ListItemService.findOne (store : List ListItem) (id : String) :
    Except AppError (Option ListItem) :=
  .ok (store.find? (fun li => li.id == id))

/--
`ListItemService.create`: build the row from the input and the generated
uuid `newId` and save it. The save hits the `'listItem-item'` composite
unique constraint when the (list, item) pair already exists; there is no
`try`/`catch` here, so the raw `QueryFailedError` escapes the service
untranslated. On success the method returns `this.findOne(newListItem.id)`.
-/
def ListItemService.create (store : List ListItem) (inp : CreateListItemInput)
    (newId : String) : Except AppError (List ListItem × Option ListItem) :=
  if store.any (fun li => li.listId == inp.listId && li.itemId == inp.itemId) then
    .error (.queryFailedError "23505"
      ("Key (listId, itemId)=(" ++ inp.listId ++ ", " ++ inp.itemId ++ ") already exists."))
  else
    let newListItem : ListItem :=
      { id := newId, quantity := inp.quantity, completed := inp.completed,
        listId := inp.listId, itemId := inp.itemId }
    let store' := store ++ [newListItem]
    match ListItemService.findOne store' newId with
    | .error e => .error e
    | .ok r => .ok (store', r)

/-- `UpdateListItemInput` (PartialType of `CreateListItemInput` plus the mandatory id). -/
structure UpdateListItemInput where
  id : String
  quantity : Option Int := none
  completed : Option Bool := none
  listId : Option String := none
  itemId : Option String := none
deriving DecidableEq

/--
`ListItemService.update`: an UPDATE query builder sets the provided fields
on the row matching the id (updating zero rows, without error, when the id
does not exist), then the method returns `this.findOne(id)` — which, due to
the missing await there, resolves to the row or `null` and never throws.
-/
def ListItemService.update (store : List ListItem) (id : String)
    (inp : UpdateListItemInput) : Except AppError (List ListItem × Option ListItem) :=
  let store' := store.map (fun li =>
    if li.id == id then
      { li with
        quantity := inp.quantity.getD li.quantity,
        completed := inp.completed.getD li.completed,
        listId := inp.listId.getD li.listId,
        itemId := inp.itemId.getD li.itemId }
    else li)
  match ListItemService.findOne store' id with
  | .error e => .error e
  | .ok r => .ok (store', r)

/-- The relational invariant on the listItems table: the (list, item) pair is unique. -/
def pairUnique (store : List ListItem) : Prop :=
  store.Pairwise (fun a b => ¬(a.listId = b.listId ∧ a.itemId = b.itemId))

/-- A fixture user owning the fixture data below. -/
def aliceUser : User :=
  { id := "u1", fullName := "Alice", email := "alice@mail.com",
    password := some (bcryptHashSync "secret"), roles := [ValidRoles.user],
    isActive := true, lastUpdatedBy := none }

/-- A second fixture user, distinct from `aliceUser`. -/
def bobUser : User :=
  { id := "u2", fullName := "Bob", email := "bob@mail.com",
    password := some (bcryptHashSync "hunter2"), roles := [ValidRoles.user],
    isActive := true, lastUpdatedBy := none }

/-- A fixture admin user. -/
def adminFixture : User :=
  { id := "u9", fullName := "Root", email := "root@mail.com",
    password := some (bcryptHashSync "rootpw"), roles := [ValidRoles.admin],
    isActive := true, lastUpdatedBy := none }

/-- A fixture item owned by `aliceUser`. -/
def milkItem : Item :=
  { id := "i1", name := "Milk", quantityUnits := some "lt", userId := "u1" }

/-- A fixture list owned by `aliceUser`. -/
def groceriesList : ListEntity :=
  { id := "l1", name := "Groceries", userId := "u1" }

/-- `bobUser` after being blocked by `adminFixture`. -/
def blockedBob : User :=
  { bobUser with isActive := false, lastUpdatedBy := some adminFixture.id }

/-- A fixture item owned by `bobUser`. -/
def beerItem : Item :=
  { id := "i2", name := "Beer", quantityUnits := none, userId := "u2" }

/-- `bobUser` after an admin renames him to "Bobby" via `UsersService.update`. -/
def bobbyUpdated : User :=
  { bobUser with fullName := "Bobby", lastUpdatedBy := some adminFixture.id }

/-- A fixture list item: item `i1` on list `l1`, quantity 2, not completed. -/
def milkOnGroceries : ListItem :=
  { id := "li1", quantity := 2, completed := false, listId := "l1", itemId := "i1" }

/-- The create input producing the same (list, item) pair as `milkOnGroceries`. -/
def milkOnGroceriesInput : CreateListItemInput :=
  { quantity := 2, completed := false, listId := "l1", itemId := "i1" }

/-- Is the error an `UnauthorizedException`? -/
def AppError.isUnauthorized : AppError → Bool
  | .unauthorizedException _ => true
  | _ => false

/-- A second fixture list owned by `aliceUser`. -/
def veggiesList : ListEntity :=
  { id := "l2", name := "Veggies", userId := "u1" }

/-- `ItemsService.findOne` fails with the NotFound error exactly when the store has no row with that id owned by that user. -/
theorem itemsFindOne_error_iff (store : List Item) (id : String) (u : User) :
    ItemsService.findOne store id u =
      .error (.notFoundException ("Item with id: " ++ id ++ " not found")) ↔
    ¬ ∃ it ∈ store, it.id = id ∧ it.userId = u.id := by
  unfold ItemsService.findOne
  cases h : store.find? (fun it => it.id == id && it.userId == u.id) with
  | none =>
    rw [List.find?_eq_none] at h
    constructor
    · rintro - ⟨it, hmem, h1, h2⟩
      have := h it hmem
      simp [h1, h2] at this
    · intro _
      rfl
  | some w =>
    have hw := List.find?_some h
    have hmem := List.mem_of_find?_eq_some h
    simp only [Bool.and_eq_true, beq_iff_eq] at hw
    constructor
    · intro hcontra
      exact Except.noConfusion hcontra
    · intro hn
      exact absurd ⟨w, hmem, hw.1, hw.2⟩ hn

/-- `ListsService.findOne` fails with the NotFound error exactly when the store has no row with that id owned by that user. -/
theorem listsFindOne_error_iff (store : List ListEntity) (id : String) (u : User) :
    ListsService.findOne store id u =
      .error (.notFoundException ("List with id: " ++ id ++ " not found")) ↔
    ¬ ∃ l ∈ store, l.id = id ∧ l.userId = u.id := by
  unfold ListsService.findOne
  cases h : store.find? (fun l => l.id == id && l.userId == u.id) with
  | none =>
    rw [List.find?_eq_none] at h
    constructor
    · rintro - ⟨l, hmem, h1, h2⟩
      have := h l hmem
      simp [h1, h2] at this
    · intro _
      rfl
  | some w =>
    have hw := List.find?_some h
    have hmem := List.mem_of_find?_eq_some h
    simp only [Bool.and_eq_true, beq_iff_eq] at hw
    constructor
    · intro hcontra
      exact Except.noConfusion hcontra
    · intro hn
      exact absurd ⟨w, hmem, hw.1, hw.2⟩ hn

/--
C1: `ItemsService.findOne(id, U)` and `ListsService.findOne(id, U)` fail
with NotFound exactly when no record with that id owned by U exists, and
the outcome is the same for any two stores in which U owns no record with
that id — in particular a record existing under a different owner is
indistinguishable from the record not existing at all.
-/
theorem c1_findOne_owner_scoping (itemStore : List Item) (listStore : List ListEntity)
    (u : User) (id : String) :
    (ItemsService.findOne itemStore id u =
        .error (.notFoundException ("Item with id: " ++ id ++ " not found")) ↔
      ¬ ∃ it ∈ itemStore, it.id = id ∧ it.userId = u.id)
    ∧ (ListsService.findOne listStore id u =
        .error (.notFoundException ("List with id: " ++ id ++ " not found")) ↔
      ¬ ∃ l ∈ listStore, l.id = id ∧ l.userId = u.id)
    ∧ (∀ s₁ s₂ : List Item,
        (¬ ∃ it ∈ s₁, it.id = id ∧ it.userId = u.id) →
        (¬ ∃ it ∈ s₂, it.id = id ∧ it.userId = u.id) →
        ItemsService.findOne s₁ id u = ItemsService.findOne s₂ id u)
    ∧ (∀ s₁ s₂ : List ListEntity,
        (¬ ∃ l ∈ s₁, l.id = id ∧ l.userId = u.id) →
        (¬ ∃ l ∈ s₂, l.id = id ∧ l.userId = u.id) →
        ListsService.findOne s₁ id u = ListsService.findOne s₂ id u) := by
  refine ⟨itemsFindOne_error_iff itemStore id u,
          listsFindOne_error_iff listStore id u, ?_, ?_⟩
  · intro s₁ s₂ h₁ h₂
    rw [(itemsFindOne_error_iff s₁ id u).mpr h₁,
        (itemsFindOne_error_iff s₂ id u).mpr h₂]
  · intro s₁ s₂ h₁ h₂
    rw [(listsFindOne_error_iff s₁ id u).mpr h₁,
        (listsFindOne_error_iff s₂ id u).mpr h₂]

/--
Witness for C1 at concrete input: Bob requesting Alice's item `i1` and
Alice's list `l1` gets exactly the NotFound outcome of an empty store.
-/
theorem c1_witness :
    ItemsService.findOne [milkItem] "i1" bobUser = ItemsService.findOne [] "i1" bobUser
    ∧ ListsService.findOne [groceriesList] "l1" bobUser =
        ListsService.findOne [] "l1" bobUser :=
  ⟨(c1_findOne_owner_scoping [milkItem] [groceriesList] bobUser "i1").2.2.1
      [milkItem] [] (by decide) (by decide),
   (c1_findOne_owner_scoping [milkItem] [groceriesList] bobUser "l1").2.2.2
      [groceriesList] [] (by decide) (by decide)⟩

/--
Counterexample to C2 as stated: with the pair (l1, i1) already present, a
second `ListItemService.create` for the same pair fails — but the error
that escapes the service is the raw storage `QueryFailedError`, which the
framework boundary surfaces as the generic 500 Internal Server Error, not
as a distinguishable user-facing conflict; it is indistinguishable from an
arbitrary unrelated storage failure.
-/
theorem c2_counterexample :
    ListItemService.create [milkOnGroceries] milkOnGroceriesInput "li2" =
      .error (.queryFailedError "23505" "Key (listId, itemId)=(l1, i1) already exists.")
    ∧ surfacedToCaller (.queryFailedError "23505" "Key (listId, itemId)=(l1, i1) already exists.")
        = .internalServerErrorException "Internal server error"
    ∧ AppError.isUserFacingConflict
        (surfacedToCaller
          (.queryFailedError "23505" "Key (listId, itemId)=(l1, i1) already exists.")) = false
    ∧ surfacedToCaller (.queryFailedError "23505" "Key (listId, itemId)=(l1, i1) already exists.")
        = surfacedToCaller (.queryFailedError "57014" "canceling statement due to user request") :=
  ⟨rfl, rfl, rfl, rfl⟩

/--
C2 amended: at most one ListItem exists per (list, item) pair — every
successful create preserves the pairwise-uniqueness invariant — and a
second create with an already-present pair fails with the storage layer's
unique-constraint violation; but that error escapes uncaught and is
surfaced as a generic internal failure, not as a distinguishable conflict.
-/
theorem c2_pair_unique_conflict_is_generic (store : List ListItem)
    (inp : CreateListItemInput) (newId : String) :
    (pairUnique store →
      ∀ store' r, ListItemService.create store inp newId = .ok (store', r) →
        pairUnique store')
    ∧ ((∃ li ∈ store, li.listId = inp.listId ∧ li.itemId = inp.itemId) →
        ListItemService.create store inp newId =
          .error (.queryFailedError "23505"
            ("Key (listId, itemId)=(" ++ inp.listId ++ ", " ++ inp.itemId ++ ") already exists."))
        ∧ surfacedToCaller
            (.queryFailedError "23505"
              ("Key (listId, itemId)=(" ++ inp.listId ++ ", " ++ inp.itemId ++ ") already exists."))
            = .internalServerErrorException "Internal server error") := by
  constructor
  · intro hpu store' r h
    unfold ListItemService.create at h
    by_cases hdup : store.any (fun li => li.listId == inp.listId && li.itemId == inp.itemId)
    · rw [if_pos hdup] at h
      exact absurd h (by simp)
    · rw [if_neg hdup] at h
      simp only [ListItemService.findOne, Except.ok.injEq, Prod.mk.injEq] at h
      obtain ⟨h1, -⟩ := h
      subst h1
      rw [pairUnique, List.pairwise_append]
      refine ⟨hpu, by simp, ?_⟩
      intro a ha b hb
      simp only [List.mem_singleton] at hb
      subst hb
      intro hcontra
      obtain ⟨hc1, hc2⟩ := hcontra
      apply hdup
      rw [List.any_eq_true]
      refine ⟨a, ha, ?_⟩
      simp only [Bool.and_eq_true, beq_iff_eq]
      exact ⟨by simpa using hc1, by simpa using hc2⟩
  · intro hex
    have hdup : store.any (fun li => li.listId == inp.listId && li.itemId == inp.itemId) = true := by
      rw [List.any_eq_true]
      obtain ⟨li, hmem, h1, h2⟩ := hex
      exact ⟨li, hmem, by simp [h1, h2]⟩
    constructor
    · unfold ListItemService.create
      rw [if_pos hdup]
    · rfl

/--
Witness for C2 amended at concrete input: creating (l1, i1) on an empty
table keeps the uniqueness invariant, and repeating the create on a table
already holding (l1, i1) yields the raw 23505 error, surfaced generically.
-/
theorem c2_witness :
    pairUnique [milkOnGroceries]
    ∧ (ListItemService.create [milkOnGroceries] milkOnGroceriesInput "li2" =
        .error (.queryFailedError "23505" "Key (listId, itemId)=(l1, i1) already exists.")
      ∧ surfacedToCaller (.queryFailedError "23505" "Key (listId, itemId)=(l1, i1) already exists.")
          = .internalServerErrorException "Internal server error") :=
  ⟨(c2_pair_unique_conflict_is_generic [] milkOnGroceriesInput "li1").1
      (by simp [pairUnique]) [milkOnGroceries] (some milkOnGroceries) rfl,
   (c2_pair_unique_conflict_is_generic [milkOnGroceries] milkOnGroceriesInput "li2").2
      (by decide)⟩

/--
C3 is a code bug: because `this.listItemsRepository.findOneBy({ id })` is
not awaited in `ListItemService.findOne`, the null-check tests a pending
promise (always truthy) and can never throw, contradicting the claim and
the method's own `@throws NotFoundException` documentation. This theorem
evaluates the embedded code at the failing input: `findOne` never reaches
its error branch for any store and id, and on an absent id both `findOne`
and `update` resolve to `null` (`none`) instead of failing with NotFound.
-/
theorem c3_findOne_never_throws_resolves_null :
    (∀ (store : List ListItem) (id : String), ∃ v, ListItemService.findOne store id = .ok v)
    ∧ ListItemService.findOne ([] : List ListItem) "li404" = .ok none
    ∧ ListItemService.findOne [milkOnGroceries] "li404" = .ok none
    ∧ ListItemService.update [milkOnGroceries] "li404" { id := "li404" } =
        .ok ([milkOnGroceries], none) :=
  ⟨fun store id => ⟨store.find? (fun li => li.id == id), rfl⟩, rfl, by rfl, by rfl⟩

/--
Counterexample to C4 as stated: against a store holding only Alice, a wrong
password for Alice's email fails with `BadRequestException('Email /
Password do not match')` (not an Unauthorized error), while a login for a
nonexistent email fails with `NotFoundException` naming the email — two
errors of different kind and message, so email existence is observable.
-/
theorem c4_counterexample :
    AuthService.login [aliceUser] { email := "alice@mail.com", password := "wrong" } =
      .error (.badRequestException "Email / Password do not match")
    ∧ AuthService.login [aliceUser] { email := "carol@mail.com", password := "wrong" } =
      .error (.notFoundException "carol@mail.com not found")
    ∧ AppError.badRequestException "Email / Password do not match" ≠
        AppError.notFoundException "carol@mail.com not found"
    ∧ (AppError.badRequestException "Email / Password do not match").isUnauthorized = false
    ∧ (AppError.notFoundException "carol@mail.com not found").isUnauthorized = false :=
  ⟨by rfl, by rfl, by decide, by decide, by decide⟩

/--
C4 amended: a login whose email resolves but whose password mismatches
fails with the generic `BadRequestException('Email / Password do not
match')`; a login whose email does not resolve fails earlier, inside
`findOneByEmail`, with `NotFoundException('<email> not found')` — the two
failures differ in kind and message, so the caller can tell whether the
email exists.
-/
theorem c4_login_distinguishes_email (store : List User) (inp : LoginInput) :
    (store.find? (fun u => u.email == inp.email) = none →
      AuthService.login store inp = .error (.notFoundException (inp.email ++ " not found")))
    ∧ (∀ u, store.find? (fun u => u.email == inp.email) = some u →
        bcryptCompareSync inp.password (u.password.getD "") = false →
        AuthService.login store inp =
          .error (.badRequestException "Email / Password do not match")) := by
  constructor
  · intro h
    unfold AuthService.login UsersService.findOneByEmail
    rw [h]
  · intro u h hpw
    unfold AuthService.login UsersService.findOneByEmail
    rw [h]
    simp [hpw]

/--
Witness for C4 amended at concrete input: Alice with a wrong password gets
the generic mismatch error; an unknown email gets the NotFound error.
-/
theorem c4_witness :
    AuthService.login [aliceUser] { email := "carol@mail.com", password := "pw" } =
      .error (.notFoundException ("carol@mail.com" ++ " not found"))
    ∧ AuthService.login [aliceUser] { email := "alice@mail.com", password := "wrong" } =
      .error (.badRequestException "Email / Password do not match") :=
  ⟨(c4_login_distinguishes_email [aliceUser]
      { email := "carol@mail.com", password := "pw" }).1 (by decide),
   (c4_login_distinguishes_email [aliceUser]
      { email := "alice@mail.com", password := "wrong" }).2 aliceUser (by decide) (by decide)⟩

/--
C5: the `CurrentUser` gate. With no validated user on the request it fails
with the fatal Internal error; with a user it grants access exactly when
the required-role list is empty or intersects the user's roles, and
otherwise fails with a Forbidden error naming the requester and the
required roles.
-/
theorem c5_role_gate (roles : List String) :
    CurrentUser roles none =
      .error (.internalServerErrorException
        "No user inside the request - make sure that we used the AuthGuard")
    ∧ (∀ u : User, CurrentUser roles (some u) = .ok u ↔
        (roles = [] ∨ ∃ r ∈ u.roles, r ∈ roles))
    ∧ (∀ u : User, roles ≠ [] → (¬ ∃ r ∈ u.roles, r ∈ roles) →
        CurrentUser roles (some u) =
          .error (.forbiddenException
            ("User " ++ u.fullName ++ " need a valid role ["
              ++ String.intercalate "," roles ++ "]"))) := by
  refine ⟨rfl, ?_, ?_⟩
  · intro u
    by_cases h1 : roles.isEmpty
    · rw [List.isEmpty_iff] at h1
      simp [CurrentUser, h1]
    · have hne : ¬(roles = []) := by
        rw [← List.isEmpty_iff]
        exact h1
      by_cases h2 : u.roles.any (fun role => roles.contains role)
      · rw [List.any_eq_true] at h2
        obtain ⟨r, hr, hrin⟩ := h2
        rw [List.elem_iff] at hrin
        have h2' : u.roles.any (fun role => roles.contains role) = true :=
          List.any_eq_true.mpr ⟨r, hr, List.elem_iff.mpr hrin⟩
        constructor
        · intro _
          exact Or.inr ⟨r, hr, hrin⟩
        · intro _
          simp only [CurrentUser]
          rw [if_neg h1, if_pos h2']
      · simp only [CurrentUser, if_neg h1, if_neg h2]
        constructor
        · intro hcontra
          exact Except.noConfusion hcontra
        · rintro (hcase | ⟨r, hr, hrin⟩)
          · exact absurd hcase hne
          · exact absurd (List.any_eq_true.mpr ⟨r, hr, by simpa using hrin⟩) h2
  · intro u hne hno
    have h1 : ¬(roles.isEmpty = true) := by
      rw [List.isEmpty_iff]
      exact hne
    have h2 : ¬(u.roles.any (fun role => roles.contains role) = true) := by
      rw [List.any_eq_true]
      rintro ⟨r, hr, hrin⟩
      exact hno ⟨r, hr, by simpa using hrin⟩
    simp only [CurrentUser, if_neg h1, if_neg h2]

/-- `likeStartsWith a b` holds exactly when `b` decomposes as `a` followed by a tail. -/
theorem likeStartsWith_iff (a : List Char) : ∀ b : List Char,
    likeStartsWith a b = true ↔ ∃ t, b = a ++ t := by
  induction a with
  | nil =>
    intro b
    simp [likeStartsWith]
  | cons c cs ih =>
    intro b
    cases b with
    | nil => simp [likeStartsWith]
    | cons d ds =>
      simp only [likeStartsWith, Bool.and_eq_true, beq_iff_eq]
      rw [ih ds]
      constructor
      · rintro ⟨hcd, t, ht⟩
        exact ⟨t, by simp [hcd, ht]⟩
      · rintro ⟨t, ht⟩
        simp only [List.cons_append] at ht
        injection ht with h1 h2
        exact ⟨h1.symm, t, h2⟩

/-- `likeAux n h` holds exactly when `n` occurs contiguously inside `h`. -/
theorem likeAux_iff (n : List Char) : ∀ h : List Char,
    likeAux n h = true ↔ ∃ pre post, h = pre ++ n ++ post := by
  intro h
  induction h with
  | nil =>
    simp only [likeAux, List.isEmpty_iff]
    constructor
    · intro hn
      exact ⟨[], [], by simp [hn]⟩
    · rintro ⟨pre, post, hp⟩
      have hp' := hp.symm
      simp only [List.append_eq_nil, List.append_assoc] at hp'
      exact hp'.2.1
  | cons c t ih =>
    simp only [likeAux, Bool.or_eq_true]
    rw [likeStartsWith_iff, ih]
    constructor
    · rintro (⟨post, hp⟩ | ⟨pre, post, hp⟩)
      · exact ⟨[], post, by simpa using hp⟩
      · exact ⟨c :: pre, post, by simp [hp]⟩
    · rintro ⟨pre, post, hp⟩
      cases pre with
      | nil => exact Or.inl ⟨post, by simpa using hp⟩
      | cons p ps =>
        simp only [List.cons_append] at hp
        injection hp with h1 h2
        exact Or.inr ⟨ps, post, h2⟩

/-- `anySuffix f` accepts a text exactly when `f` accepts some decomposition tail of it. -/
theorem anySuffix_iff (f : List Char → Bool) : ∀ text : List Char,
    anySuffix f text = true ↔ ∃ pre rest, text = pre ++ rest ∧ f rest = true := by
  intro text
  induction text with
  | nil =>
    simp only [anySuffix]
    constructor
    · intro h
      exact ⟨[], [], rfl, h⟩
    · rintro ⟨pre, rest, hp, hf⟩
      obtain ⟨hpre, hrest⟩ := List.append_eq_nil.mp hp.symm
      subst hrest
      exact hf
  | cons t ts ih =>
    simp only [anySuffix, Bool.or_eq_true]
    rw [ih]
    constructor
    · rintro (h | ⟨pre, rest, hp, hf⟩)
      · exact ⟨[], t :: ts, rfl, h⟩
      · exact ⟨t :: pre, rest, by simp [hp], hf⟩
    · rintro ⟨pre, rest, hp, hf⟩
      cases pre with
      | nil =>
        left
        rw [List.nil_append] at hp
        rw [hp]
        exact hf
      | cons p pre2 =>
        right
        simp only [List.cons_append] at hp
        injection hp with h1 h2
        exact ⟨pre2, rest, h2, hf⟩

/-- A pattern headed by `%` matches a text exactly when the tail pattern matches some suffix. -/
theorem likeMatch_percent (ps text : List Char) :
    likeMatch ('%' :: ps) text = anySuffix (fun rest => likeMatch ps rest) text := by
  rw [likeMatch.eq_def]
  dsimp only
  rw [if_pos rfl]

/-- A pattern headed by a non-`%` character never matches the empty text. -/
theorem likeMatch_cons_nil (p : Char) (ps : List Char) (hp : p ≠ '%') :
    likeMatch (p :: ps) [] = false := by
  rw [likeMatch.eq_def]
  dsimp only
  rw [if_neg hp]

/-- Unfolding of `likeMatch` for a non-`%` pattern head against a non-empty text. -/
theorem likeMatch_cons_cons (p : Char) (ps : List Char) (t : Char) (ts : List Char)
    (hp : p ≠ '%') :
    likeMatch (p :: ps) (t :: ts) =
      (if p = '_' then likeMatch ps ts
       else if p = '\\' then
         match ps with
         | [] => false
         | q :: ps2 => q == t && likeMatch ps2 ts
       else p == t && likeMatch ps ts) := by
  rw [likeMatch.eq_def]
  dsimp only
  rw [if_neg hp]

/-- The pattern consisting of a single `%` matches every text. -/
theorem likeMatch_percent_nil (text : List Char) : likeMatch ['%'] text = true := by
  rw [likeMatch_percent, anySuffix_iff]
  exact ⟨text, [], by simp, rfl⟩

/--
A metacharacter-free needle followed by `%` matches a text exactly when
the text starts with the needle.
-/
theorem likeMatch_lit_percent : ∀ needle : List Char,
    (∀ c ∈ needle, ¬(c = '%' ∨ c = '_' ∨ c = '\\')) →
    ∀ text, likeMatch (needle ++ ['%']) text = true ↔ ∃ post, text = needle ++ post := by
  intro needle
  induction needle with
  | nil =>
    intro _ text
    constructor
    · intro _
      exact ⟨text, rfl⟩
    · intro _
      exact likeMatch_percent_nil text
  | cons c cs ih =>
    intro hfree text
    have hc := hfree c (by simp)
    push_neg at hc
    obtain ⟨hc1, hc2, hc3⟩ := hc
    have ihf : ∀ x ∈ cs, ¬(x = '%' ∨ x = '_' ∨ x = '\\') :=
      fun x hx => hfree x (by simp [hx])
    cases text with
    | nil =>
      rw [List.cons_append, likeMatch_cons_nil _ _ hc1]
      constructor
      · intro h
        exact absurd h (by decide)
      · rintro ⟨post, hp⟩
        exact List.noConfusion hp
    | cons t ts =>
      rw [List.cons_append, likeMatch_cons_cons _ _ _ _ hc1, if_neg hc2, if_neg hc3]
      rw [Bool.and_eq_true, beq_iff_eq, ih ihf ts]
      constructor
      · rintro ⟨hct, post, hp⟩
        refine ⟨post, ?_⟩
        rw [List.cons_append, hct, hp]
      · rintro ⟨post, hp⟩
        rw [List.cons_append] at hp
        injection hp with h1 h2
        exact ⟨h1.symm, post, h2⟩

/--
For search terms whose (lowered) characters contain no LIKE metacharacter
(`%`, `_`, or the escape backslash), the program's LIKE filter is exactly
the case-insensitive substring test.
-/
theorem sqlLikeLower_substring_iff (t column : String)
    (hfree : ∀ c ∈ lowerChars t, ¬(c = '%' ∨ c = '_' ∨ c = '\\')) :
    sqlLikeLower t column = true ↔
      ∃ pre post, lowerChars column = pre ++ lowerChars t ++ post := by
  have h1 : sqlLikeLower t column = true ↔
      ∃ pre rest, lowerChars column = pre ++ rest ∧
        likeMatch (lowerChars t ++ ['%']) rest = true := by
    unfold sqlLikeLower
    rw [likeMatch_percent]
    exact anySuffix_iff _ _
  rw [h1]
  constructor
  · rintro ⟨pre, rest, hp, hm⟩
    obtain ⟨post, hpost⟩ := (likeMatch_lit_percent (lowerChars t) hfree rest).mp hm
    refine ⟨pre, post, ?_⟩
    rw [hp, hpost, List.append_assoc]
  · rintro ⟨pre, post, hp⟩
    refine ⟨pre, lowerChars t ++ post, ?_, ?_⟩
    · rw [hp, List.append_assoc]
    · exact (likeMatch_lit_percent (lowerChars t) hfree (lowerChars t ++ post)).mpr ⟨post, rfl⟩

/-- The empty search term produces the pattern `%%`, which accepts every column value. -/
theorem sqlLikeLower_empty_term (column : String) : sqlLikeLower "" column = true :=
  (sqlLikeLower_substring_iff "" column (fun c hc => absurd hc (List.not_mem_nil c))).mpr
    ⟨lowerChars column, [],
      by
        have h0 : lowerChars "" = ([] : List Char) := rfl
        rw [h0, List.append_nil, List.append_nil]⟩

/-- Concatenating consecutive pages of size `L` reproduces a prefix of the dataset. -/
theorem pagesJoin {α : Type} (l : List α) (L : Nat) :
    ∀ K : Nat, ((List.range K).map (fun i => (l.drop (i * L)).take L)).flatten = l.take (K * L) := by
  intro K
  induction K with
  | zero => simp
  | succ k ih =>
    rw [List.range_succ, List.map_append, List.flatten_append, ih]
    simp only [List.map_cons, List.map_nil, List.flatten_cons, List.flatten_nil, List.append_nil]
    rw [Nat.succ_mul, List.take_add]

/--
Membership in `ListsService.findAll`'s pre-pagination row set: owned rows
whose name passes the LIKE filter (a non-empty term is applied as a LIKE
pattern; an empty or absent term filters nothing, and the `%%` pattern of
the empty term accepts everything, so the two phrasings coincide).
-/
theorem listsMemMatchingRows (store : List ListEntity) (u : User)
    (s : Option String) (x : ListEntity) :
    x ∈ ListsService.matchingRows store u s ↔
      x ∈ store ∧ x.userId = u.id ∧
        ∀ t, s = some t → sqlLikeLower t x.name = true := by
  unfold ListsService.matchingRows
  rw [List.mem_filter, List.mem_filter]
  simp only [beq_iff_eq]
  rw [and_assoc]
  refine and_congr_right (fun _ => and_congr_right (fun _ => ?_))
  cases s with
  | none => simp
  | some t =>
    simp only [Option.some.injEq, forall_eq']
    by_cases he : t.isEmpty
    · have ht : t = "" := (String.isEmpty_iff t).mp he
      subst ht
      rw [if_pos he]
      simp [sqlLikeLower_empty_term]
    · rw [if_neg he]

/-- Membership in `ItemsService.findAll`'s pre-pagination row set (LIKE filter on the item name). -/
theorem itemsMemMatchingRows (store : List Item) (u : User)
    (s : Option String) (x : Item) :
    x ∈ ItemsService.matchingRows store u s ↔
      x ∈ store ∧ x.userId = u.id ∧
        ∀ t, s = some t → sqlLikeLower t x.name = true := by
  unfold ItemsService.matchingRows
  rw [List.mem_filter, List.mem_filter]
  simp only [beq_iff_eq]
  rw [and_assoc]
  refine and_congr_right (fun _ => and_congr_right (fun _ => ?_))
  cases s with
  | none => simp
  | some t =>
    simp only [Option.some.injEq, forall_eq']
    by_cases he : t.isEmpty
    · have ht : t = "" := (String.isEmpty_iff t).mp he
      subst ht
      rw [if_pos he]
      simp [sqlLikeLower_empty_term]
    · rw [if_neg he]

/--
Counterexample to C6 as stated: the search term is embedded unescaped in
the LIKE pattern, so `_` acts as a single-character wildcard. With the term
"m_lk", `ItemsService.findAll`'s filter admits the item named "Milk"
(postgres evaluates `LOWER('Milk') LIKE '%m_lk%'` as true), yet "m_lk" is
not a substring of "milk" — the filter is not case-insensitive substring
match for terms containing LIKE metacharacters.
-/
theorem c6_counterexample :
    ItemsService.matchingRows [milkItem] aliceUser (some "m_lk") = [milkItem]
    ∧ sqlLikeLower "m_lk" "Milk" = true
    ∧ likeAux (lowerChars "m_lk") (lowerChars "Milk") = false
    ∧ ¬∃ pre post, lowerChars "Milk" = pre ++ lowerChars "m_lk" ++ post :=
  ⟨by decide, by decide, by decide,
   fun ⟨pre, post, hp⟩ =>
     absurd ((likeAux_iff (lowerChars "m_lk") (lowerChars "Milk")).mpr ⟨pre, post, hp⟩)
       (by decide)⟩

/--
C6 amended: `findAll` on Lists and on Items returns exactly the
requester-owned rows whose name passes the LIKE pattern
`'%' || lower(search) || '%'` when a non-empty term is given, then sliced
as `LIMIT limit OFFSET offset`; for search terms free of LIKE
metacharacters (`%`, `_`, escape `\`) that filter is exactly
case-insensitive substring match. The page length is `min L (N - O)` (Nat
subtraction, i.e. `max 0` built in), and concatenating the pages at
offsets `0, L, 2L, …` reproduces the whole matching dataset exactly once.
-/
theorem c6_findAll_filter_slice (listStore : List ListEntity) (itemStore : List Item)
    (u : User) (L O : Nat) (s : Option String) :
    (ListsService.findAll listStore u L O s =
      ((ListsService.matchingRows listStore u s).drop O).take L)
    ∧ (∀ x, x ∈ ListsService.matchingRows listStore u s ↔
        x ∈ listStore ∧ x.userId = u.id ∧
          ∀ t, s = some t → sqlLikeLower t x.name = true)
    ∧ (∀ t column : String, (∀ c ∈ lowerChars t, ¬(c = '%' ∨ c = '_' ∨ c = '\\')) →
        (sqlLikeLower t column = true ↔
          ∃ pre post, lowerChars column = pre ++ lowerChars t ++ post))
    ∧ ((ListsService.findAll listStore u L O s).length =
        min L ((ListsService.matchingRows listStore u s).length - O))
    ∧ (∀ K, (ListsService.matchingRows listStore u s).length ≤ K * L →
        ((List.range K).map
          (fun i => ListsService.findAll listStore u L (i * L) s)).flatten =
          ListsService.matchingRows listStore u s)
    ∧ (ItemsService.findAll itemStore u L O s =
        ((ItemsService.matchingRows itemStore u s).drop O).take L)
    ∧ (∀ x, x ∈ ItemsService.matchingRows itemStore u s ↔
        x ∈ itemStore ∧ x.userId = u.id ∧
          ∀ t, s = some t → sqlLikeLower t x.name = true)
    ∧ ((ItemsService.findAll itemStore u L O s).length =
        min L ((ItemsService.matchingRows itemStore u s).length - O))
    ∧ (∀ K, (ItemsService.matchingRows itemStore u s).length ≤ K * L →
        ((List.range K).map
          (fun i => ItemsService.findAll itemStore u L (i * L) s)).flatten =
          ItemsService.matchingRows itemStore u s) := by
  refine ⟨rfl, listsMemMatchingRows listStore u s,
          fun t column hfree => sqlLikeLower_substring_iff t column hfree, ?_, ?_, rfl,
          itemsMemMatchingRows itemStore u s, ?_, ?_⟩
  · simp [ListsService.findAll]
  · intro K hK
    exact (pagesJoin (ListsService.matchingRows listStore u s) L K).trans
      (List.take_of_length_le hK)
  · simp [ItemsService.findAll]
  · intro K hK
    exact (pagesJoin (ItemsService.matchingRows itemStore u s) L K).trans
      (List.take_of_length_le hK)

/--
Witness for C6 at concrete input: two pages of size 1 over Alice's two
lists cover the matching dataset exactly once; the metacharacter-free
search term "MI" (case-insensitive) passes the LIKE filter for the item
named "Milk" and is certified a substring of it.
-/
theorem c6_witness :
    ((List.range 2).map
        (fun i => ListsService.findAll [groceriesList, veggiesList] aliceUser 1 (i * 1) none)).flatten
      = ListsService.matchingRows [groceriesList, veggiesList] aliceUser none
    ∧ milkItem ∈ ItemsService.matchingRows [milkItem] aliceUser (some "MI")
    ∧ sqlLikeLower "MI" "Milk" = true :=
  ⟨(c6_findAll_filter_slice [groceriesList, veggiesList] [milkItem] aliceUser 1 0
      none).2.2.2.2.1 2 (by decide),
   ((c6_findAll_filter_slice [groceriesList, veggiesList] [milkItem] aliceUser 1 0
      (some "MI")).2.2.2.2.2.2.1 milkItem).mpr
      ⟨by decide, by decide,
        fun t ht => by
          cases ht
          decide⟩,
   ((c6_findAll_filter_slice [groceriesList, veggiesList] [milkItem] aliceUser 1 0
      (some "MI")).2.2.1 "MI" "Milk" (by decide)).mpr ⟨[], ['l', 'k'], by decide⟩⟩

/--
Witness for C5 at concrete input: an admin passes the admin-only gate, a
plain user is rejected with the Forbidden error naming them.
-/
theorem c5_witness :
    CurrentUser ["admin"] (some adminFixture) = .ok adminFixture
    ∧ CurrentUser ["admin"] (some bobUser) =
        .error (.forbiddenException "User Bob need a valid role [admin]") :=
  ⟨((c5_role_gate ["admin"]).2.1 adminFixture).mpr
      (Or.inr ⟨"admin", by decide, by decide⟩),
   (c5_role_gate ["admin"]).2.2 bobUser (by decide) (by decide)⟩


/--
Replacing a row by primary key and then looking the key up again finds the
replacement, provided a row with that key was present.
-/
theorem find?_saveUser (b : User) (key : String) (hb : b.id = key) :
    ∀ store : List User,
      (store.find? (fun v => v.id == key)).isSome = true →
      (saveUser store b).find? (fun v => v.id == key) = some b := by
  intro store
  induction store with
  | nil =>
    intro h
    simp at h
  | cons a t ih =>
    intro h
    rw [saveUser, List.map_cons]
    by_cases ha : (a.id == b.id) = true
    · rw [if_pos ha]
      exact List.find?_cons_of_pos _ (by simp [hb])
    · rw [if_neg ha]
      have ha' : ¬((a.id == key) = true) := by
        rw [← hb]
        simpa using ha
      have step2 : List.find? (fun v => v.id == key) (a :: t) =
          List.find? (fun v => v.id == key) t :=
        List.find?_cons_of_neg _ ha'
      have step1 : List.find? (fun v => v.id == key) (a :: saveUser t b) =
          List.find? (fun v => v.id == key) (saveUser t b) :=
        List.find?_cons_of_neg _ ha'
      exact step1.trans (ih (by rwa [step2] at h))

/--
C7: after a successful `UsersService.block(id, admin)`, the user returned
and persisted has `isActive = false`, and `AuthService.validateUser` on the
resulting store fails with the Unauthorized "inactive" error for that id —
independent of any token expiry, which is checked elsewhere.
-/
theorem c7_block_then_validate_fails (store : List User) (id : String)
    (adminUser : User) (store' : List User) (u' : User)
    (h : UsersService.block store id adminUser = .ok (store', u')) :
    u'.isActive = false
    ∧ u'.lastUpdatedBy = some adminUser.id
    ∧ store'.find? (fun v => v.id == id) = some u'
    ∧ AuthService.validateUser store' id =
        .error (.unauthorizedException "User is inactive, talk with an admin") := by
  unfold UsersService.block UsersService.findOneById at h
  cases hf : store.find? (fun v => v.id == id) with
  | none =>
    rw [hf] at h
    exact absurd h (by simp)
  | some w =>
    rw [hf] at h
    simp only [Except.ok.injEq, Prod.mk.injEq] at h
    obtain ⟨h1, h2⟩ := h
    have hwid : w.id = id := by
      have := List.find?_some hf
      simpa using this
    subst h1
    subst h2
    have hfind : (saveUser store
        { w with isActive := false, lastUpdatedBy := some adminUser.id }).find?
          (fun v => v.id == id) =
        some { w with isActive := false, lastUpdatedBy := some adminUser.id } :=
      find?_saveUser { w with isActive := false, lastUpdatedBy := some adminUser.id }
        id hwid store (by rw [hf]; rfl)
    refine ⟨rfl, rfl, hfind, ?_⟩
    simp only [AuthService.validateUser, UsersService.findOneById, hfind]
    rfl

/--
Witness for C7 at concrete input: blocking Bob persists `isActive = false`
and makes token validation for his id fail Unauthorized.
-/
theorem c7_witness :
    blockedBob.isActive = false
    ∧ blockedBob.lastUpdatedBy = some adminFixture.id
    ∧ ([blockedBob] : List User).find? (fun v => v.id == "u2") = some blockedBob
    ∧ AuthService.validateUser [blockedBob] "u2" =
        .error (.unauthorizedException "User is inactive, talk with an admin") :=
  c7_block_then_validate_fails [bobUser] "u2" adminFixture [blockedBob] blockedBob (by rfl)

/--
C10: every successful `UsersService.update(id, input, updatedBy)` and every
successful `UsersService.block(id, adminUser)` returns and persists a user
record whose `lastUpdatedBy` names the acting user.
-/
theorem c10_lastUpdatedBy_set (store : List User) (id : String) (inp : UpdateUserInput)
    (updatedBy adminUser : User) :
    (∀ store' u', UsersService.update store id inp updatedBy = .ok (store', u') →
        u'.lastUpdatedBy = some updatedBy.id
        ∧ store'.find? (fun v => v.id == id) = some u')
    ∧ (∀ store' u', UsersService.block store id adminUser = .ok (store', u') →
        u'.lastUpdatedBy = some adminUser.id
        ∧ store'.find? (fun v => v.id == id) = some u') := by
  constructor
  · intro store' u' h
    unfold UsersService.update preloadUser at h
    cases hf : store.find? (fun u => u.id == id) with
    | none =>
      rw [hf] at h
      simp [Option.map, handleDBErrors] at h
    | some w =>
      rw [hf] at h
      have hwid : w.id = id := by
        have := List.find?_some hf
        simpa using this
      simp only [Option.map] at h
      split at h
      · exact absurd h (by simp)
      · simp only [Except.ok.injEq, Prod.mk.injEq] at h
        obtain ⟨h1, h2⟩ := h
        subst h1
        subst h2
        exact ⟨rfl, find?_saveUser
          { id := w.id, fullName := inp.fullName.getD w.fullName,
            email := inp.email.getD w.email, password := w.password,
            roles := w.roles, isActive := w.isActive,
            lastUpdatedBy := some updatedBy.id }
          id hwid store (by rw [hf]; rfl)⟩
  · intro store' u' h
    unfold UsersService.block UsersService.findOneById at h
    cases hf : store.find? (fun v => v.id == id) with
    | none =>
      rw [hf] at h
      exact absurd h (by simp)
    | some w =>
      rw [hf] at h
      simp only [Except.ok.injEq, Prod.mk.injEq] at h
      obtain ⟨h1, h2⟩ := h
      have hwid : w.id = id := by
        have := List.find?_some hf
        simpa using this
      subst h1
      subst h2
      refine ⟨rfl, ?_⟩
      exact find?_saveUser { w with isActive := false, lastUpdatedBy := some adminUser.id }
        id hwid store (by rw [hf]; rfl)

/--
Witness for C10 at concrete input: an admin updating Bob's name and an
admin blocking Bob both persist `lastUpdatedBy = adminFixture`.
-/
theorem c10_witness :
    (bobbyUpdated.lastUpdatedBy = some adminFixture.id
      ∧ ([bobbyUpdated] : List User).find? (fun v => v.id == "u2") = some bobbyUpdated)
    ∧ (blockedBob.lastUpdatedBy = some adminFixture.id
      ∧ ([blockedBob] : List User).find? (fun v => v.id == "u2") = some blockedBob) :=
  ⟨(c10_lastUpdatedBy_set [bobUser] "u2" { id := "u2", fullName := some "Bobby" }
      adminFixture adminFixture).1 [bobbyUpdated] bobbyUpdated (by rfl),
   (c10_lastUpdatedBy_set [bobUser] "u2" { id := "u2", fullName := some "Bobby" }
      adminFixture adminFixture).2 [blockedBob] blockedBob (by rfl)⟩

/-- A row whose id differs from the replaced key is untouched by `saveItem`. -/
theorem mem_saveItem_of_ne (store : List Item) (m v : Item)
    (hv : v ∈ store) (hne : ¬(v.id = m.id)) : v ∈ saveItem store m := by
  unfold saveItem
  refine List.mem_map.mpr ⟨v, hv, ?_⟩
  rw [if_neg (by simpa using hne)]

/-- A row whose id differs from the replaced key is untouched by `saveList`. -/
theorem mem_saveList_of_ne (store : List ListEntity) (m v : ListEntity)
    (hv : v ∈ store) (hne : ¬(v.id = m.id)) : v ∈ saveList store m := by
  unfold saveList
  refine List.mem_map.mpr ⟨v, hv, ?_⟩
  rw [if_neg (by simpa using hne)]

/--
`ItemsService.update` under the resolver's calling convention
(`input.id = id`): it fails exactly when `findOne` fails, and on success it
saves the merge of the stored row with that id.
-/
theorem itemsUpdate_spec (store : List Item) (u : User) (id : String)
    (inp : UpdateItemInput) (hii : inp.id = id) :
    (∀ e, ItemsService.update store id inp u = .error e ↔
        ItemsService.findOne store id u = .error e)
    ∧ (∀ w, store.find? (fun r => r.id == id) = some w →
        ∀ w', store.find? (fun r => r.id == id && r.userId == u.id) = some w' →
          ItemsService.update store id inp u =
            .ok (saveItem store (mergeItem w inp), mergeItem w inp)) := by
  have hpred : (fun (r : Item) => r.id == inp.id) = (fun r => r.id == id) := by
    funext r
    rw [hii]
  constructor
  · intro e
    unfold ItemsService.update
    cases hop : store.find? (fun it => it.id == id && it.userId == u.id) with
    | none =>
      have hfo : ItemsService.findOne store id u =
          .error (.notFoundException ("Item with id: " ++ id ++ " not found")) := by
        unfold ItemsService.findOne
        rw [hop]
      simp [hfo]
    | some w0 =>
      have hw0 := List.find?_some hop
      simp only [Bool.and_eq_true, beq_iff_eq] at hw0
      have hmem := List.mem_of_find?_eq_some hop
      have hfo : ItemsService.findOne store id u = .ok w0 := by
        unfold ItemsService.findOne
        rw [hop]
      have hsome : (store.find? (fun r => r.id == id)).isSome = true := by
        rw [List.find?_isSome]
        exact ⟨w0, hmem, by simp [hw0.1]⟩
      obtain ⟨w1, hw1⟩ := Option.isSome_iff_exists.mp hsome
      have hpre : ItemsService.preload store inp = some (mergeItem w1 inp) := by
        unfold ItemsService.preload
        rw [hpred, hw1]
        rfl
      simp [hfo, hpre]
  · intro w hw w' hw'
    unfold ItemsService.update
    have hfo : ItemsService.findOne store id u = .ok w' := by
      unfold ItemsService.findOne
      rw [hw']
    have hpre : ItemsService.preload store inp = some (mergeItem w inp) := by
      unfold ItemsService.preload
      rw [hpred, hw]
      rfl
    simp [hfo, hpre]

/--
`ListsService.update` under the resolver's calling convention
(`input.id = id`): it fails exactly when `findOne` fails, and on success it
saves the merge of the stored row with that id.
-/
theorem listsUpdate_spec (store : List ListEntity) (u : User) (id : String)
    (inp : UpdateListInput) (hli : inp.id = id) :
    (∀ e, ListsService.update store id inp u = .error e ↔
        ListsService.findOne store id u = .error e)
    ∧ (∀ w, store.find? (fun r => r.id == id) = some w →
        ∀ w', store.find? (fun r => r.id == id && r.userId == u.id) = some w' →
          ListsService.update store id inp u =
            .ok (saveList store (mergeList w inp), mergeList w inp)) := by
  have hpred : (fun (r : ListEntity) => r.id == inp.id) = (fun r => r.id == id) := by
    funext r
    rw [hli]
  constructor
  · intro e
    unfold ListsService.update
    cases hop : store.find? (fun l => l.id == id && l.userId == u.id) with
    | none =>
      have hfo : ListsService.findOne store id u =
          .error (.notFoundException ("List with id: " ++ id ++ " not found")) := by
        unfold ListsService.findOne
        rw [hop]
      simp [hfo]
    | some w0 =>
      have hw0 := List.find?_some hop
      simp only [Bool.and_eq_true, beq_iff_eq] at hw0
      have hmem := List.mem_of_find?_eq_some hop
      have hfo : ListsService.findOne store id u = .ok w0 := by
        unfold ListsService.findOne
        rw [hop]
      have hsome : (store.find? (fun r => r.id == id)).isSome = true := by
        rw [List.find?_isSome]
        exact ⟨w0, hmem, by simp [hw0.1]⟩
      obtain ⟨w1, hw1⟩ := Option.isSome_iff_exists.mp hsome
      have hpre : ListsService.preload store inp = some (mergeList w1 inp) := by
        unfold ListsService.preload
        rw [hpred, hw1]
        rfl
      simp [hfo, hpre]
  · intro w hw w' hw'
    unfold ListsService.update
    have hfo : ListsService.findOne store id u = .ok w' := by
      unfold ListsService.findOne
      rw [hw']
    have hpre : ListsService.preload store inp = some (mergeList w inp) := by
      unfold ListsService.preload
      rw [hpred, hw]
      rfl
    simp [hfo, hpre]

/--
Counterexample to C8 as stated: the ownership check runs on the `id`
argument but `preload` merges onto the record with `input.id`. Alice, who
owns item `i1` but not `i2`, calls `update("i1", { id: "i2", name:
"Hacked" })`: the call succeeds and modifies Bob's item `i2` — a record
other than the one with identifier `id`, owned by a different user.
-/
theorem c8_counterexample :
    ItemsService.update [milkItem, beerItem] "i1"
        { id := "i2", name := some "Hacked" } aliceUser =
      .ok ([milkItem, { id := "i2", name := "Hacked", quantityUnits := none, userId := "u2" }],
           { id := "i2", name := "Hacked", quantityUnits := none, userId := "u2" })
    ∧ ({ id := "i2", name := "Hacked", quantityUnits := none, userId := "u2" } : Item) ≠ beerItem
    ∧ ("i2" : String) ≠ "i1" :=
  ⟨rfl, by decide, by decide⟩

/--
C8 amended: restricted to the resolvers' calling convention
`input.id = id`, `update` on Items and on Lists fails with NotFound exactly
when `findOne(id, owner)` fails; otherwise it persists the partial merge of
the input onto the stored record with identifier `id` (absent input fields
keep their stored values) and every record with a different id is left
unchanged. Without that restriction the merge target is the record with
identifier `input.id`, as the counterexample shows.
-/
theorem c8_update_checks_then_merges (itemStore : List Item) (listStore : List ListEntity)
    (u : User) (id : String) (iinp : UpdateItemInput) (linp : UpdateListInput)
    (hii : iinp.id = id) (hli : linp.id = id) :
    (∀ e, ItemsService.update itemStore id iinp u = .error e ↔
        ItemsService.findOne itemStore id u = .error e)
    ∧ (∀ w, itemStore.find? (fun r => r.id == id) = some w →
        (∀ w', itemStore.find? (fun r => r.id == id && r.userId == u.id) = some w' →
          ItemsService.update itemStore id iinp u =
            .ok (saveItem itemStore (mergeItem w iinp), mergeItem w iinp))
        ∧ (iinp.name = none → (mergeItem w iinp).name = w.name)
        ∧ (iinp.quantityUnits = none → (mergeItem w iinp).quantityUnits = w.quantityUnits)
        ∧ ∀ v ∈ itemStore, ¬(v.id = id) → v ∈ saveItem itemStore (mergeItem w iinp))
    ∧ (∀ e, ListsService.update listStore id linp u = .error e ↔
        ListsService.findOne listStore id u = .error e)
    ∧ (∀ w, listStore.find? (fun r => r.id == id) = some w →
        (∀ w', listStore.find? (fun r => r.id == id && r.userId == u.id) = some w' →
          ListsService.update listStore id linp u =
            .ok (saveList listStore (mergeList w linp), mergeList w linp))
        ∧ (linp.name = none → (mergeList w linp).name = w.name)
        ∧ ∀ v ∈ listStore, ¬(v.id = id) → v ∈ saveList listStore (mergeList w linp)) := by
  refine ⟨(itemsUpdate_spec itemStore u id iinp hii).1, ?_,
          (listsUpdate_spec listStore u id linp hli).1, ?_⟩
  · intro w hw
    have hwid : w.id = id := by
      have := List.find?_some hw
      simpa using this
    refine ⟨fun w' hw' => (itemsUpdate_spec itemStore u id iinp hii).2 w hw w' hw',
            ?_, ?_, ?_⟩
    · intro hn
      simp [mergeItem, hn]
    · intro hn
      simp [mergeItem, hn]
    · intro v hv hne
      refine mem_saveItem_of_ne itemStore (mergeItem w iinp) v hv ?_
      simpa [mergeItem, hwid] using hne
  · intro w hw
    have hwid : w.id = id := by
      have := List.find?_some hw
      simpa using this
    refine ⟨fun w' hw' => (listsUpdate_spec listStore u id linp hli).2 w hw w' hw',
            ?_, ?_⟩
    · intro hn
      simp [mergeList, hn]
    · intro v hv hne
      refine mem_saveList_of_ne listStore (mergeList w linp) v hv ?_
      simpa [mergeList, hwid] using hne

/--
Witness for C8 amended at concrete input: Alice updating her own item `i1`
(with `input.id = "i1"`) and her own list `l1` (with `input.id = "l1"`)
persists the merge of the respective stored record.
-/
theorem c8_witness :
    ItemsService.update [milkItem] "i1" { id := "i1", name := some "Oat Milk" } aliceUser =
      .ok (saveItem [milkItem] (mergeItem milkItem { id := "i1", name := some "Oat Milk" }),
           mergeItem milkItem { id := "i1", name := some "Oat Milk" })
    ∧ ListsService.update [groceriesList] "l1" { id := "l1" } aliceUser =
      .ok (saveList [groceriesList] (mergeList groceriesList { id := "l1" }),
           mergeList groceriesList { id := "l1" }) :=
  ⟨((c8_update_checks_then_merges [milkItem] [groceriesList] aliceUser "i1"
      { id := "i1", name := some "Oat Milk" } { id := "i1" } rfl rfl).2.1
      milkItem (by decide)).1 milkItem (by decide),
   ((c8_update_checks_then_merges [milkItem] [groceriesList] aliceUser "l1"
      { id := "l1", name := some "x" } { id := "l1" } rfl rfl).2.2.2
      groceriesList (by decide)).1 groceriesList (by decide)⟩

/--
Counterexample to C9 as stated: a successful login returns the stored user
object unmodified, so the returned value still carries the stored password
hash — only `validateUser` deletes the password before returning.
-/
theorem c9_counterexample :
    AuthService.login [aliceUser] { email := "alice@mail.com", password := "secret" } =
      .ok { token := "jwt.u1", user := aliceUser }
    ∧ aliceUser.password = some (bcryptHashSync "secret")
    ∧ aliceUser.password ≠ none :=
  ⟨rfl, rfl, by decide⟩

/--
C9 amended: `validateUser` strips the password from the user it returns,
and `revalidateToken` passes the (already stripped) context user through
unchanged; but `login` returns the stored record itself — password hash
included — and `signup` returns the newly created record whose password is
the bcrypt hash of the input password. Outward non-exposure for
login/signup rests on the GraphQL schema not declaring the password column
as a field, outside these services.
-/
theorem c9_password_stripping (store : List User) (id : String) :
    (∀ u, AuthService.validateUser store id = .ok u → u.password = none)
    ∧ (∀ u : User, u.password = none → (AuthService.revalidateToken u).user.password = none)
    ∧ (∀ inp resp, AuthService.login store inp = .ok resp → resp.user ∈ store)
    ∧ (∀ inp newId store' resp, AuthService.signup store inp newId = .ok (store', resp) →
        resp.user.password = some (bcryptHashSync inp.password)) := by
  refine ⟨?_, ?_, ?_, ?_⟩
  · intro u h
    unfold AuthService.validateUser UsersService.findOneById at h
    cases hf : store.find? (fun v => v.id == id) with
    | none =>
      rw [hf] at h
      simp at h
    | some w =>
      rw [hf] at h
      cases hact : w.isActive with
      | false =>
        simp [hact] at h
      | true =>
        simp only [hact, Bool.not_true] at h
        simp only [if_neg (by simp : ¬((false : Bool) = true)), Except.ok.injEq] at h
        rw [← h]
  · intro u h
    simpa [AuthService.revalidateToken] using h
  · intro inp resp h
    unfold AuthService.login UsersService.findOneByEmail at h
    cases hf : store.find? (fun v => v.email == inp.email) with
    | none =>
      rw [hf] at h
      simp at h
    | some w =>
      rw [hf] at h
      have hm := List.mem_of_find?_eq_some hf
      cases hcmp : bcryptCompareSync inp.password (w.password.getD "") with
      | false =>
        simp [hcmp] at h
      | true =>
        simp only [hcmp, Bool.not_true] at h
        simp only [if_neg (by simp : ¬((false : Bool) = true)), Except.ok.injEq] at h
        rw [← h]
        exact hm
  · intro inp newId store' resp h
    unfold AuthService.signup UsersService.create at h
    cases hdup : store.any (fun v => v.email == inp.email) with
    | true =>
      simp [hdup] at h
    | false =>
      simp only [hdup, Bool.false_eq_true, if_false, Except.ok.injEq, Prod.mk.injEq] at h
      obtain ⟨h1, h2⟩ := h
      rw [← h2]

/--
Witness for C9 amended at concrete input: validating Alice's token returns
her record with the password removed; a successful login returns the
stored record (hash included); signing Carol up returns the new record
carrying the bcrypt hash of her password.
-/
theorem c9_witness :
    ({ aliceUser with password := none } : User).password = none
    ∧ (AuthService.revalidateToken { aliceUser with password := none }).user.password = none
    ∧ aliceUser ∈ [aliceUser]
    ∧ ({ token := getJwtToken "u3",
         user := { id := "u3", fullName := "Carol", email := "carol@mail.com",
                   password := some (bcryptHashSync "pw"), roles := [ValidRoles.user],
                   isActive := true, lastUpdatedBy := none } } : AuthResponse).user.password =
        some (bcryptHashSync "pw") :=
  ⟨(c9_password_stripping [aliceUser] "u1").1 { aliceUser with password := none } (by rfl),
   (c9_password_stripping [aliceUser] "u1").2.1 { aliceUser with password := none } (by rfl),
   (c9_password_stripping [aliceUser] "u1").2.2.1
      { email := "alice@mail.com", password := "secret" }
      { token := getJwtToken "u1", user := aliceUser } (by rfl),
   (c9_password_stripping [aliceUser] "u1").2.2.2
      { fullName := "Carol", email := "carol@mail.com", password := "pw" } "u3"
      [aliceUser,
       { id := "u3", fullName := "Carol", email := "carol@mail.com",
         password := some (bcryptHashSync "pw"), roles := [ValidRoles.user],
         isActive := true, lastUpdatedBy := none }]
      { token := getJwtToken "u3",
        user := { id := "u3", fullName := "Carol", email := "carol@mail.com",
                  password := some (bcryptHashSync "pw"), roles := [ValidRoles.user],
                  isActive := true, lastUpdatedBy := none } } (by rfl)⟩
